import Mathlib

/-!
# FineDB: protocol constants, server start-up, signal handler and worker loop

A shallow embedding of `src/protocol.h`, `src/main.c` and
`src/connection_thread.c`.

* Integers of the protocol are natural numbers; the C operators `&`, `|`, `^`
  are `&&&`, `|||`, `^^^` on `Nat`, and `~` is the complement of the 32-bit
  pattern of an `int`.
* Code with effects (`main`, `signal_handler`, the worker loop) is a function
  from the outcomes of the library calls it makes to the list of calls it
  performs, in order, and the final server structure.
-/

namespace FineDB

/-! ## protocol.h -/

/-- List of protocol commands (`protocol_command_t`). -/
inductive protocol_command_t
  | PROTO_GET
  | PROTO_PUT
  deriving DecidableEq, Repr

/-- Integer value of a command constant. -/
def protocol_command_t.val : protocol_command_t → Nat
  | .PROTO_GET => 0
  | .PROTO_PUT => 1

/-- List of command options (`protocol_option_t`). -/
inductive protocol_option_t
  | PROTO_OPT_REPLICATION
  | PROTO_OPT_SYNC
  | PROTO_OPT_DBNAME
  | PROTO_OPT_DATA
  | PROTO_OPT_COMPRESS
  deriving DecidableEq, Repr

/-- Integer value of an option constant. -/
def protocol_option_t.val : protocol_option_t → Nat
  | .PROTO_OPT_REPLICATION => 0x08
  | .PROTO_OPT_SYNC => 0x10
  | .PROTO_OPT_DBNAME => 0x20
  | .PROTO_OPT_DATA => 0x40
  | .PROTO_OPT_COMPRESS => 0x80

/-- List of response codes (`protocol_response_t`). -/
inductive protocol_response_t
  | RESP_OK
  | RESP_PROTO
  | RESP_SERVER_ERR
  | RESP_NO_DATA
  | RESP_UNDEFINED
  deriving DecidableEq, Repr

/-- Integer value of a response code constant. -/
def protocol_response_t.val : protocol_response_t → Nat
  | .RESP_OK => 0
  | .RESP_PROTO => 1
  | .RESP_SERVER_ERR => 2
  | .RESP_NO_DATA => 3
  | .RESP_UNDEFINED => 4

def PROTO_GET : Nat := protocol_command_t.PROTO_GET.val
def PROTO_PUT : Nat := protocol_command_t.PROTO_PUT.val
def PROTO_OPT_REPLICATION : Nat := protocol_option_t.PROTO_OPT_REPLICATION.val
def PROTO_OPT_SYNC : Nat := protocol_option_t.PROTO_OPT_SYNC.val
def PROTO_OPT_DBNAME : Nat := protocol_option_t.PROTO_OPT_DBNAME.val
def PROTO_OPT_DATA : Nat := protocol_option_t.PROTO_OPT_DATA.val
def PROTO_OPT_COMPRESS : Nat := protocol_option_t.PROTO_OPT_COMPRESS.val

/-- Macro `REQUEST_COMMAND(c)`, defined as `(c & 1)`. -/
def REQUEST_COMMAND (c : Nat) : Nat := c &&& 1

/-- Macro `REQUEST_HAS_REPLICATION(c)`, defined as `(c & PROTO_OPT_REPLICATION)`. -/
def REQUEST_HAS_REPLICATION (c : Nat) : Nat := c &&& PROTO_OPT_REPLICATION

/-- Macro `REQUEST_HAS_SYNC(c)`, defined as `(c & PROTO_OPT_SYNC)`. -/
def REQUEST_HAS_SYNC (c : Nat) : Nat := c &&& PROTO_OPT_SYNC

/-- Macro `REQUEST_HAS_DBNAME(c)`, defined as `(c & PROTO_OPT_DBNAME)`. -/
def REQUEST_HAS_DBNAME (c : Nat) : Nat := c &&& PROTO_OPT_DBNAME

/-- Macro `REQUEST_HAS_DATA(c)`, defined as `(c & PROTO_OPT_DATA)`. -/
def REQUEST_HAS_DATA (c : Nat) : Nat := c &&& PROTO_OPT_DATA

/-- Macro `REQUEST_HAS_COMPRESS(c)`, defined as `(c & PROTO_OPT_COMPRESS)`. -/
def REQUEST_HAS_COMPRESS (c : Nat) : Nat := c &&& PROTO_OPT_COMPRESS

/-- Macro `RESPONSE_ADD_DATA(c)`, defined as `(c | PROTO_OPT_DATA)`. -/
def RESPONSE_ADD_DATA (c : Nat) : Nat := c ||| PROTO_OPT_DATA

/-- Bitwise OR of the values of a collection of options: the option part of a
control byte.  The list may name an option more than once. -/
def optionMask : List protocol_option_t → Nat
  | [] => 0
  | o :: rest => o.val ||| optionMask rest

/-- The C operator `~` on the bit pattern of a 32-bit `int`. -/
def bitNot32 (m : Nat) : Nat := m ^^^ 0xFFFFFFFF

/-- The body of the macro `RESPONSE_ADD_COMPRESS`, which the header defines
with no parameter list, as `(c | PROTO_OPT_COMPRESS)`: the `c` of the body is
whatever variable of that name is in scope where the macro is written. -/
def RESPONSE_ADD_COMPRESS (c_in_scope : Nat) : Nat := c_in_scope ||| PROTO_OPT_COMPRESS

/-- Expressions a caller can write with the two response macros. -/
inductive response_expr
  /-- A response code constant, such as `RESP_OK`. -/
  | code (r : protocol_response_t)
  /-- The identifier `c`. -/
  | var_c
  /-- The text `RESPONSE_ADD_DATA(arg)`. -/
  | add_data (arg : response_expr)
  /-- The text `RESPONSE_ADD_COMPRESS`, with no argument. -/
  | add_compress
  /-- The text `RESPONSE_ADD_COMPRESS(arg)`. -/
  | add_compress_of (arg : response_expr)
  deriving DecidableEq, Repr

/-- Value of a macro expression after preprocessing, in a scope where the
variable `c` holds `c` (`none`: no variable of that name).  The result `none`
is an expression the compiler rejects.
`RESPONSE_ADD_DATA(arg)` becomes `(arg | PROTO_OPT_DATA)`.
`RESPONSE_ADD_COMPRESS` becomes `(c | PROTO_OPT_COMPRESS)`.
`RESPONSE_ADD_COMPRESS(arg)` becomes `(c | PROTO_OPT_COMPRESS)(arg)`, a call
of an integer, which is not C. -/
def response_expr.eval (c : Option Nat) : response_expr → Option Nat
  | .code r => some r.val
  | .var_c => c
  | .add_data arg => (arg.eval c).map RESPONSE_ADD_DATA
  | .add_compress => c.map RESPONSE_ADD_COMPRESS
  | .add_compress_of _ => none

/-! ## The server structure and the calls of `main.c` -/

/-- Structure of a connection thread: its thread identifier and the file
descriptor it serves.  (Its pointer back to the one server structure is left
out.) -/
structure tcp_thread_t where
  tid : Nat
  fd : Int
  deriving DecidableEq, Repr

/-- The fields of `finedb_t` that `main.c` and `connection_thread.c` use.
`database` is `none` for a `NULL` handle. -/
structure finedb_t where
  run : Bool
  database : Option Nat
  threads_socket : Int
  writer_tid : Option Nat
  tcp_threads : List tcp_thread_t
  deriving DecidableEq, Repr

/-- What the second argument of `signal` can be in `main.c`. -/
inductive sighandler_t
  | SIG_IGN
  | signal_handler
  deriving DecidableEq, Repr

/-- Calls made by `main` and `signal_handler`, with what each returned.
The loop that creates the connection threads is one entry, holding the result
of every `connection_thread_new` call in order (`none` for `NULL`).
Logging calls are left out. -/
inductive call
  | signal (sig : Int) (handler : sighandler_t)
  | usage
  | database_open (db_path : String) (r : Option Nat)
  | database_close (database : Option Nat)
  | nn_socket (r : Int)
  | nn_bind (sock : Int) (r : Int)
  | pthread_create_writer (r : Option Nat)
  | connection_threads (rs : List (Option tcp_thread_t))
  | create_listening_socket (port : Nat) (ok : Bool)
  | main_loop
  | exit (status : Nat)
  deriving DecidableEq, Repr

/-- State of the process when `main` or `signal_handler` is over: the calls
made in order, the server structure, and the exit status (`none` while the
process stays in `main_loop`). -/
structure run_result where
  calls : List call
  finedb : finedb_t
  status : Option Nat
  deriving DecidableEq, Repr

/-- Signal number of `SIGINT`. -/
def SIGINT : Int := 2

/-- Signal handler of `main.c`: ignore the signal from now on, clear the run
flag, close the database, exit with status 0. -/
def signal_handler (finedb_g : finedb_t) (sig : Int) : run_result :=
  let finedb : finedb_t := { finedb_g with run := false }
  { calls := [.signal sig .SIG_IGN, .database_close finedb.database, .exit 0],
    finedb := finedb,
    status := some 0 }

/-- One option as `getopt` returns it for the option string `"dht:f:p:"`; for
`-t` and `-p` the field is the value of `atoi(optarg)`. -/
inductive cli_opt
  | t (atoi_optarg : Int)
  | p (atoi_optarg : Int)
  | f (optarg : String)
  | d
  | h
  | unknown
  deriving DecidableEq, Repr

/-- The three local variables of `main` that the options set. -/
structure config where
  nbr_threads : Fin 65536
  port : Fin 65536
  db_path : String
  deriving DecidableEq, Repr

/-- The cast `(unsigned short)` of an `int`. -/
def to_ushort (v : Int) : Fin 65536 :=
  ⟨(v % 65536).toNat, by omega⟩

/-- The `getopt` loop of `main`; `none` when `-h` is met (`usage(); exit(0);`). -/
def getopt_loop : config → List cli_opt → Option config
  | cfg, [] => some cfg
  | cfg, .t v :: rest => getopt_loop { cfg with nbr_threads := to_ushort v } rest
  | cfg, .p v :: rest => getopt_loop { cfg with port := to_ushort v } rest
  | cfg, .f path :: rest => getopt_loop { cfg with db_path := path } rest
  | cfg, .d :: rest => getopt_loop cfg rest
  | _, .h :: _ => none
  | cfg, .unknown :: rest => getopt_loop cfg rest

/-- What the library calls of a start-up return.
`database_open`: the handle, `none` for `NULL`.
`nn_socket`, `nn_bind`: the returned integer, negative on failure.
`writer_pthread_create`: the thread identifier, `none` for a non-zero return.
`thread_pthread_create i`: the same for the `pthread_create` call of the
`i`-th `connection_thread_new`.
`create_listening_socket`: whether the result is `YENOERR`.
`main_loop_returns`: whether `main_loop` ever returns. -/
structure outcomes where
  database_open : Option Nat
  nn_socket : Int
  nn_bind : Int
  writer_pthread_create : Option Nat
  thread_pthread_create : Nat → Option Nat
  create_listening_socket : Bool
  main_loop_returns : Bool

/-- Function `connection_thread_new`, given what its `pthread_create` call
returns: `NULL` when the thread cannot be created, else the new structure,
with `fd` set to -1.  The allocation is taken to succeed; `pthread_detach` is
not recorded. -/
def connection_thread_new (pthread_create : Option Nat) : Option tcp_thread_t :=
  match pthread_create with
  | none => none
  | some tid => some { tid := tid, fd := -1 }

/-- The loop `for (i = 0; (unsigned short)i < nbr_threads; i++)` of `main`,
from the value `i` on: `rs` collects what `connection_thread_new` returned,
`tcp_threads` is the vector `yv_add` appends to. -/
def connection_threads_loop (pthread_create : Nat → Option Nat) (nbr_threads : Fin 65536)
    (i : Nat) (rs : List (Option tcp_thread_t)) (tcp_threads : List tcp_thread_t) :
    List (Option tcp_thread_t) × List tcp_thread_t :=
  if i % 65536 < nbr_threads.val then
    match connection_thread_new (pthread_create i) with
    | some thread =>
      connection_threads_loop pthread_create nbr_threads (i + 1) (rs ++ [some thread])
        (tcp_threads ++ [thread])
    | none =>
      connection_threads_loop pthread_create nbr_threads (i + 1) (rs ++ [none]) tcp_threads
  else (rs, tcp_threads)
termination_by 65535 - i % 65536
decreasing_by
  all_goals simp_wf
  all_goals omega

/-- Function `main`.  `defaults` holds `DEFAULT_NBR_THREADS`, `DEFAULT_PORT`
and `DEFAULT_DB_PATH`, `finedb0` is what `init_finedb()` returns, `argv` the
options in the order `getopt` yields them, `o` what the library calls return. -/
def main (defaults : config) (finedb0 : finedb_t) (argv : List cli_opt) (o : outcomes) :
    run_result :=
  let calls0 : List call := [.signal SIGINT .signal_handler]
  match getopt_loop defaults argv with
  | none => { calls := calls0 ++ [.usage, .exit 0], finedb := finedb0, status := some 0 }
  | some cfg =>
    -- open database
    let finedb1 : finedb_t := { finedb0 with database := o.database_open }
    let calls1 := calls0 ++ [.database_open cfg.db_path o.database_open]
    if finedb1.database = none then
      { calls := calls1 ++ [.exit 1], finedb := finedb1, status := some 1 }
    else
      -- create the nanomsg socket for threads communication
      let finedb2 : finedb_t := { finedb1 with threads_socket := o.nn_socket }
      let calls2 :=
        if finedb2.threads_socket < 0 then calls1 ++ [.nn_socket o.nn_socket]
        else calls1 ++ [.nn_socket o.nn_socket, .nn_bind finedb2.threads_socket o.nn_bind]
      if finedb2.threads_socket < 0 ∨ o.nn_bind < 0 then
        { calls := calls2 ++ [.database_close finedb2.database, .exit 2],
          finedb := finedb2, status := some 2 }
      else
        -- create writer thread
        let calls3 := calls2 ++ [.pthread_create_writer o.writer_pthread_create]
        match o.writer_pthread_create with
        | none =>
          { calls := calls3 ++ [.database_close finedb2.database, .exit 3],
            finedb := finedb2, status := some 3 }
        | some writer_tid =>
          let finedb3 : finedb_t := { finedb2 with writer_tid := some writer_tid }
          -- create connection threads
          let loop := connection_threads_loop o.thread_pthread_create cfg.nbr_threads 0 []
            finedb3.tcp_threads
          let finedb4 : finedb_t := { finedb3 with tcp_threads := loop.2 }
          let calls4 := calls3 ++ [.connection_threads loop.1]
          -- create the listening socket
          let calls5 := calls4 ++ [.create_listening_socket cfg.port o.create_listening_socket]
          if o.create_listening_socket = false then
            { calls := calls5 ++ [.exit 4], finedb := finedb4, status := some 4 }
          else
            -- main server loop
            { calls := calls5 ++ [.main_loop], finedb := finedb4,
              status := if o.main_loop_returns then some 0 else none }

/-! ## The worker loop of `connection_thread.c` -/

/-- Calls made by a connection thread, with what each returned; `nn_recv`
holds the received message, `none` when the call returned a negative value. -/
inductive worker_call
  | nn_socket (r : Int)
  | nn_connect (sock : Int) (r : Int)
  | pthread_exit
  | nn_recv (r : Option (List Char))
  | write (fd : Int) (buf : String) (count : Nat)
  | close (fd : Int)
  deriving DecidableEq, Repr

/-- C `isspace` in the "C" locale. -/
def isspace (c : Char) : Bool :=
  c.toNat = 32 || (9 ≤ c.toNat && c.toNat ≤ 13)

/-- The digits part of `atoi`: reads decimal digits while there are some. -/
def atoi_digits : List Char → Nat → Nat
  | [], acc => acc
  | c :: cs, acc =>
    if 48 ≤ c.toNat ∧ c.toNat ≤ 57 then atoi_digits cs (acc * 10 + (c.toNat - 48)) else acc

/-- The value `strtol(s, NULL, 10)` returns, with a 64-bit `long`: white space
is skipped, then an optional sign and the decimal digits that follow are read;
a value above `LONG_MAX` gives `LONG_MAX`, one below `LONG_MIN` gives
`LONG_MIN`. -/
def strtol (s : List Char) : Int :=
  let v : Int :=
    match s.dropWhile isspace with
    | '-' :: cs => -((atoi_digits cs 0 : Nat) : Int)
    | '+' :: cs => ((atoi_digits cs 0 : Nat) : Int)
    | cs => ((atoi_digits cs 0 : Nat) : Int)
  if 9223372036854775807 < v then 9223372036854775807
  else if v < -9223372036854775808 then -9223372036854775808
  else v

/-- Conversion of a `long` to the 32-bit `int`: the low 32 bits, read in two's
complement. -/
def to_int (v : Int) : Int := (v + 2147483648) % 4294967296 - 2147483648

/-- C `atoi`, whose result is an `int`: `(int) strtol(s, NULL, 10)`, as the C
library computes it.  (The C standard leaves the result undefined when the
number is outside the range of `int`; this is what the library returns then,
for example 5 on `4294967301`.) -/
def atoi (s : List Char) : Int := to_int (strtol s)

/-- The string literal the worker writes to every connection. -/
def ACK : String := "OK ca marche\n"

/-- The `for (; ; )` loop of `_connection_thread_execution`, run over the
successive results of `nn_recv`; `trace` holds the calls made so far.  When
the list is exhausted the thread is blocked in `nn_recv`. -/
def worker_loop : List (Option (List Char)) → List worker_call → List worker_call
  | [], trace => trace
  | none :: rest, trace =>
    -- `continue`
    worker_loop rest (trace ++ [.nn_recv none])
  | some buffer :: rest, trace =>
    let fd := atoi buffer
    worker_loop rest (trace ++ [.nn_recv (some buffer), .write fd ACK 13, .close fd])

/-- Function `_connection_thread_execution`: connect to the socket of the main
thread, then loop over the incoming connections. -/
def _connection_thread_execution (nn_socket nn_connect : Int)
    (recvs : List (Option (List Char))) : List worker_call :=
  if nn_socket < 0 then [.nn_socket nn_socket, .pthread_exit]
  else if nn_connect < 0 then
    [.nn_socket nn_socket, .nn_connect nn_socket nn_connect, .pthread_exit]
  else worker_loop recvs [.nn_socket nn_socket, .nn_connect nn_socket nn_connect]

/-! ## Reading a run of `main` -/

/-- The four components the server starts. -/
inductive component
  | storage
  | write_serializer
  | worker_pool
  | listener
  deriving DecidableEq, Repr

/-- The component a call of `main` starts, if any. -/
def call.component : call → Option component
  | .database_open _ _ => some .storage
  | .pthread_create_writer _ => some .write_serializer
  | .connection_threads _ => some .worker_pool
  | .create_listening_socket _ _ => some .listener
  | _ => none

/-- The components `main` went to start, in the order it did. -/
def started (r : run_result) : List component := r.calls.filterMap call.component

/-- Whether a call is a `database_close`. -/
def call.is_database_close : call → Bool
  | .database_close _ => true
  | _ => false

/-- The fatal steps of a start-up in the order `main` takes them, each with
whether it fails and the status `main` exits with when it does. -/
def fatal_steps (o : outcomes) : List (Bool × Nat) :=
  [ (o.database_open = none, 1),
    (o.nn_socket < 0 || o.nn_bind < 0, 2),
    (o.writer_pthread_create = none, 3),
    (o.create_listening_socket = false, 4) ]

/-- Status of the first failing fatal step, `none` when no step fails. -/
def first_failure (o : outcomes) : Option Nat :=
  ((fatal_steps o).find? (fun s => s.1)).map (fun s => s.2)

/-! ## The text of a use of `REQUEST_COMMAND` -/

/-- Integer expressions of C written with the bitwise operators, as the
compiler parses them; `paren` is a pair of parentheses in the text.  In C, `~`
binds tighter than `&`, `&` tighter than `^`, and `^` tighter than `|`. -/
inductive c_expr
  | num (n : Nat)
  | paren (e : c_expr)
  | bnot (e : c_expr)
  | band (a b : c_expr)
  | bxor (a b : c_expr)
  | bor (a b : c_expr)
  deriving DecidableEq, Repr

/-- Value of an expression. -/
def c_expr.eval : c_expr → Nat
  | .num n => n
  | .paren e => e.eval
  | .bnot e => bitNot32 e.eval
  | .band a b => a.eval &&& b.eval
  | .bxor a b => a.eval ^^^ b.eval
  | .bor a b => a.eval ||| b.eval

/-- Parse of the text of `e` followed by `& 1`, with no parentheses added.
Since `&` binds tighter than `|` and `^`, the text `a | b & 1` is
`a | (b & 1)` and `a ^ b & 1` is `a ^ (b & 1)`; any other text `e & 1` is the
conjunction of `e` and 1 (`a & b & 1` is `(a & b) & 1`). -/
def c_expr.and_one : c_expr → c_expr
  | .bor a b => .bor a b.and_one
  | .bxor a b => .bxor a b.and_one
  | e => .band e (.num 1)

/-- What the preprocessor makes of `REQUEST_COMMAND(e)`.  The header defines
the macro as `(c & 1)`, its parameter not parenthesised, so the text of the
operand is pasted before `& 1`. -/
def REQUEST_COMMAND_expand (e : c_expr) : c_expr := .paren e.and_one

/-! ## Reading a run of a connection thread -/

/-- Whether a call is a `write` on the descriptor `fd`. -/
def worker_call.is_write_to (fd : Int) : worker_call → Bool
  | .write fd2 _ _ => fd2 = fd
  | _ => false

/-- Whether a call is the `close` of the descriptor `fd`. -/
def worker_call.is_close_of (fd : Int) : worker_call → Bool
  | .close fd2 => fd2 = fd
  | _ => false

/-- Whether a result of `nn_recv` is a message that names the descriptor `fd`. -/
def is_receive_of (fd : Int) : Option (List Char) → Bool
  | some buffer => atoi buffer = fd
  | none => false

/-- Number of times the descriptor `fd` was received. -/
def received (fd : Int) (recvs : List (Option (List Char))) : Nat :=
  recvs.countP (is_receive_of fd)

/-- The calls expected for one result of `nn_recv`: the receive alone when it
failed, else the receive, one write of the acknowledgment to the descriptor
named by the message, and one close of that descriptor. -/
def one_receive : Option (List Char) → List worker_call
  | none => [.nn_recv none]
  | some buffer => [.nn_recv (some buffer), .write (atoi buffer) ACK 13, .close (atoi buffer)]

/-! ## Lemmas on the option mask -/

/-- Masking an option mask with the value `v` of a bit that no option in the
list owns gives zero. -/
theorem optionMask_and_of_forall (v : Nat) (S : List protocol_option_t)
    (h : ∀ o ∈ S, o.val &&& v = 0) : optionMask S &&& v = 0 := by
  induction S with
  | nil => simp [optionMask]
  | cons o rest ih =>
    have h1 : o.val &&& v = 0 := h o (List.mem_cons_self o rest)
    have h2 : optionMask rest &&& v = 0 :=
      ih (fun p hp => h p (List.mem_cons_of_mem o hp))
    rw [optionMask, Nat.and_comm, Nat.and_or_distrib_left, Nat.and_comm v o.val,
      Nat.and_comm v (optionMask rest), h1, h2]
    rfl

/-- Masking an option mask with the value of option `x` gives the value of `x`
when `x` is in the list and zero otherwise. -/
theorem optionMask_and_val (x : protocol_option_t) (S : List protocol_option_t) :
    optionMask S &&& x.val = if x ∈ S then x.val else 0 := by
  induction S with
  | nil => simp [optionMask]
  | cons o rest ih =>
    rw [optionMask, Nat.and_comm, Nat.and_or_distrib_left, Nat.and_comm x.val o.val,
      Nat.and_comm x.val (optionMask rest), ih]
    by_cases hx : x = o
    · subst hx
      by_cases hr : x ∈ rest
      · simp [hr]
      · simp [hr]
    · have ho : o.val &&& x.val = 0 := by
        cases o <;> cases x <;> first | (exact absurd rfl hx) | rfl
      by_cases hr : x ∈ rest
      · simp [hr, ho, hx]
      · simp [hr, ho, hx]

theorem protocol_option_val_pos (x : protocol_option_t) : x.val ≠ 0 := by
  cases x <;> decide

/-- The bit of option `x` is set in the mask exactly when `x` is in the list. -/
theorem optionMask_and_val_ne_zero (x : protocol_option_t) (S : List protocol_option_t) :
    optionMask S &&& x.val ≠ 0 ↔ x ∈ S := by
  rw [optionMask_and_val]
  by_cases hx : x ∈ S
  · simp [hx, protocol_option_val_pos]
  · simp [hx]

/-- No option owns one of the three low bits. -/
theorem optionMask_and_seven (S : List protocol_option_t) : optionMask S &&& 7 = 0 :=
  optionMask_and_of_forall 7 S (fun o _ => by cases o <;> rfl)

/-- No option owns bit 0. -/
theorem optionMask_and_one (S : List protocol_option_t) : optionMask S &&& 1 = 0 :=
  optionMask_and_of_forall 1 S (fun o _ => by cases o <;> rfl)

/-- Masking `a ||| m` with `v`, when `m` has no bit of `v`. -/
theorem or_and_of_and_eq_zero (a m v : Nat) (h : m &&& v = 0) :
    (a ||| m) &&& v = a &&& v := by
  rw [Nat.and_comm, Nat.and_or_distrib_left, Nat.and_comm v m, h, Nat.and_comm v a]
  simp

/-- Masking `a ||| m` with `v`, when `a` has no bit of `v`. -/
theorem or_and_of_left_and_eq_zero (a m v : Nat) (h : a &&& v = 0) :
    (a ||| m) &&& v = m &&& v := by
  rw [Nat.and_comm, Nat.and_or_distrib_left, Nat.and_comm v a, h, Nat.and_comm v m]
  simp

/-- A command constant has none of the option bits. -/
theorem command_val_and_option (cmd : protocol_command_t) (x : protocol_option_t) :
    cmd.val &&& x.val = 0 := by
  cases cmd <;> cases x <;> rfl

/-- A response code has none of the option bits. -/
theorem response_val_and_option (c : protocol_response_t) (x : protocol_option_t) :
    c.val &&& x.val = 0 := by
  cases c <;> cases x <;> rfl

/-- Bit 0 of the complement of an option mask is set. -/
theorem bitNot32_optionMask_and_one (S : List protocol_option_t) :
    bitNot32 (optionMask S) &&& 1 = 1 := by
  unfold bitNot32
  rw [Nat.and_xor_distrib_right, optionMask_and_one]
  rfl

/-! ## Claims on `protocol.h` -/

/-- C1. Control-byte round trip: for a command `cmd` and a collection `S` of
options, the byte `cmd | (OR of the options of S)` decodes to `cmd` with
`REQUEST_COMMAND`, and each `REQUEST_HAS_X` is non-zero on it exactly when `X`
is in `S`. -/
theorem control_byte_round_trip (cmd : protocol_command_t) (S : List protocol_option_t) :
    REQUEST_COMMAND (cmd.val ||| optionMask S) = cmd.val ∧
    (REQUEST_HAS_REPLICATION (cmd.val ||| optionMask S) ≠ 0 ↔
      protocol_option_t.PROTO_OPT_REPLICATION ∈ S) ∧
    (REQUEST_HAS_SYNC (cmd.val ||| optionMask S) ≠ 0 ↔
      protocol_option_t.PROTO_OPT_SYNC ∈ S) ∧
    (REQUEST_HAS_DBNAME (cmd.val ||| optionMask S) ≠ 0 ↔
      protocol_option_t.PROTO_OPT_DBNAME ∈ S) ∧
    (REQUEST_HAS_DATA (cmd.val ||| optionMask S) ≠ 0 ↔
      protocol_option_t.PROTO_OPT_DATA ∈ S) ∧
    (REQUEST_HAS_COMPRESS (cmd.val ||| optionMask S) ≠ 0 ↔
      protocol_option_t.PROTO_OPT_COMPRESS ∈ S) := by
  have key : ∀ x : protocol_option_t,
      ((cmd.val ||| optionMask S) &&& x.val ≠ 0 ↔ x ∈ S) := fun x => by
    rw [or_and_of_left_and_eq_zero _ _ _ (command_val_and_option cmd x)]
    exact optionMask_and_val_ne_zero x S
  refine ⟨?_, key _, key _, key _, key _, key _⟩
  unfold REQUEST_COMMAND
  rw [or_and_of_and_eq_zero _ _ _ (optionMask_and_one S)]
  cases cmd <;> rfl

/-- With the modified byte stored in a variable first: for a control byte `c`
and a mask `m` made of option bits only, setting (`c | m`), clearing
(`c & ~m`) or toggling (`c ^ m`) the bits of `m` leaves `REQUEST_COMMAND` of
the variable unchanged, and the command is `PROTO_GET` or `PROTO_PUT`. -/
theorem command_of_stored_byte (c : Nat) (hc : c < 256)
    (S : List protocol_option_t) :
    REQUEST_COMMAND (c ||| optionMask S) = REQUEST_COMMAND c ∧
    REQUEST_COMMAND (c &&& bitNot32 (optionMask S)) = REQUEST_COMMAND c ∧
    REQUEST_COMMAND (c ^^^ optionMask S) = REQUEST_COMMAND c ∧
    (REQUEST_COMMAND c = PROTO_GET ∨ REQUEST_COMMAND c = PROTO_PUT) := by
  have _ := hc
  unfold REQUEST_COMMAND
  refine ⟨or_and_of_and_eq_zero _ _ _ (optionMask_and_one S), ?_, ?_, ?_⟩
  · rw [Nat.and_assoc, bitNot32_optionMask_and_one]
  · rw [Nat.and_xor_distrib_right, optionMask_and_one]
    simp
  · have h2 : c &&& 1 = c % 2 := Nat.and_one_is_mod c
    have h3 : c % 2 < 2 := Nat.mod_lt c (by decide)
    show c &&& 1 = 0 ∨ c &&& 1 = 1
    omega

/-- C2, evaluated on the header as written, at the control byte `c = 0x41`
(PUT with DATA) and the mask `m = PROTO_OPT_SYNC`.  The parameter of
`REQUEST_COMMAND` is not parenthesised, so `REQUEST_COMMAND(c | m)` is
`(c | m & 1)`, that is `c | (m & 1)`, and `REQUEST_COMMAND(c ^ m)` is
`c ^ (m & 1)`: both give the whole byte `0x41`, which is neither
`REQUEST_COMMAND(c) = 1` nor one of `PROTO_GET`, `PROTO_PUT`.
`REQUEST_COMMAND(c & ~m)` is `(c & ~m & 1)` and gives 1, as does the macro on
a parenthesised operand. -/
theorem REQUEST_COMMAND_operand_not_parenthesised :
    REQUEST_COMMAND_expand (.bor (.num 0x41) (.num PROTO_OPT_SYNC)) =
      .paren (.bor (.num 0x41) (.band (.num PROTO_OPT_SYNC) (.num 1))) ∧
    (REQUEST_COMMAND_expand (.bor (.num 0x41) (.num PROTO_OPT_SYNC))).eval = 0x41 ∧
    (REQUEST_COMMAND_expand (.bxor (.num 0x41) (.num PROTO_OPT_SYNC))).eval = 0x41 ∧
    (REQUEST_COMMAND_expand (.num 0x41)).eval = 1 ∧
    REQUEST_COMMAND 0x41 = 1 ∧
    (0x41 : Nat) ≠ PROTO_GET ∧ (0x41 : Nat) ≠ PROTO_PUT ∧
    (REQUEST_COMMAND_expand (.band (.num 0x41) (.bnot (.num PROTO_OPT_SYNC)))).eval = 1 ∧
    (REQUEST_COMMAND_expand (.paren (.bor (.num 0x41) (.num PROTO_OPT_SYNC)))).eval = 1 := by
  refine ⟨rfl, ?_, ?_, ?_, ?_, ?_, ?_, ?_, ?_⟩ <;> decide

/-- C3, evaluated on the header as written.  `RESPONSE_ADD_COMPRESS` has no
parameter list.  Written with an operand, as in
`RESPONSE_ADD_COMPRESS(RESPONSE_ADD_DATA(RESP_OK))`, it is rejected by the
compiler, and it is rejected too where no variable is named `c`.  Written
bare where `c` holds `RESP_OK`, it gives `0x80` whatever byte the caller meant
to extend, so after `RESPONSE_ADD_DATA(RESP_OK) = 0x40` the DATA bit is not in
the result.  Only the order COMPRESS first, DATA second, gives `0xC0`. -/
theorem RESPONSE_ADD_COMPRESS_has_no_operand :
    (response_expr.add_compress_of (.add_data (.code .RESP_OK))).eval (some 0) = none ∧
    (response_expr.add_compress_of (.code .RESP_OK)).eval (some 0) = none ∧
    response_expr.add_compress.eval none = none ∧
    (response_expr.add_data (.code .RESP_OK)).eval (some 0) = some 0x40 ∧
    response_expr.add_compress.eval (some 0) = some 0x80 ∧
    (response_expr.add_data .add_compress).eval (some 0) = some 0xC0 := by
  refine ⟨rfl, rfl, rfl, ?_, ?_, ?_⟩ <;> decide

/-- C10. The response code survives option bits: every response code is below
the lowest option bit `0x08`; for a response code `c` and a collection `S` of
options (in particular one of DATA and COMPRESS only), the byte
`r = c | (OR of the options of S)` has `r & 0x07 = c`, has the DATA bit exactly
when DATA is in `S` and the COMPRESS bit exactly when COMPRESS is in `S`;
`RESPONSE_ADD_DATA(c) & 0x07 = c`; and a different response code never gives
the same byte, whatever its options. -/
theorem response_code_survives_options (c : protocol_response_t)
    (S : List protocol_option_t) :
    c.val < PROTO_OPT_REPLICATION ∧
    (∀ x : protocol_option_t, PROTO_OPT_REPLICATION ≤ x.val) ∧
    (c.val ||| optionMask S) &&& 0x07 = c.val ∧
    ((c.val ||| optionMask S) &&& PROTO_OPT_DATA ≠ 0 ↔
      protocol_option_t.PROTO_OPT_DATA ∈ S) ∧
    ((c.val ||| optionMask S) &&& PROTO_OPT_COMPRESS ≠ 0 ↔
      protocol_option_t.PROTO_OPT_COMPRESS ∈ S) ∧
    RESPONSE_ADD_DATA c.val &&& 0x07 = c.val ∧
    (∀ (c2 : protocol_response_t) (S2 : List protocol_option_t), c2 ≠ c →
      c2.val ||| optionMask S2 ≠ c.val ||| optionMask S) := by
  have low : ∀ (d : protocol_response_t) (T : List protocol_option_t),
      (d.val ||| optionMask T) &&& 0x07 = d.val := fun d T => by
    rw [or_and_of_and_eq_zero _ _ _ (optionMask_and_seven T)]
    cases d <;> rfl
  have key : ∀ x : protocol_option_t,
      ((c.val ||| optionMask S) &&& x.val ≠ 0 ↔ x ∈ S) := fun x => by
    rw [or_and_of_left_and_eq_zero _ _ _ (response_val_and_option c x)]
    exact optionMask_and_val_ne_zero x S
  refine ⟨by cases c <;> decide, fun x => by cases x <;> decide, low c S, key _, key _,
    by cases c <;> rfl, ?_⟩
  intro c2 S2 hne heq
  have h1 := low c2 S2
  rw [heq, low c S] at h1
  apply hne
  cases c <;> cases c2 <;> first | rfl | (exact absurd h1 (by decide))

/-! ## Lemmas on `main.c` -/

/-- `connection_thread_new` returns `NULL` exactly when the thread creation
fails. -/
theorem connection_thread_new_eq_none (pc : Option Nat) :
    connection_thread_new pc = none ↔ pc = none := by
  cases pc <;> simp [connection_thread_new]

/-- The thread-creation loop, `k` iterations before the bound: it makes
exactly `k` more calls of `connection_thread_new`, for `i`, ..., `i + k - 1`,
and appends the threads created to the vector. -/
theorem connection_threads_loop_eq (pc : Nat → Option Nat) (n : Fin 65536) (k : Nat) :
    ∀ (i : Nat) (rs : List (Option tcp_thread_t)) (ts : List tcp_thread_t),
      i + k = n.val →
      connection_threads_loop pc n i rs ts =
        (rs ++ (List.range' i k).map (fun j => connection_thread_new (pc j)),
         ts ++ (List.range' i k).filterMap (fun j => connection_thread_new (pc j))) := by
  induction k with
  | zero =>
    intro i rs ts h
    have hn := n.isLt
    have hmod : i % 65536 = i := Nat.mod_eq_of_lt (by omega)
    rw [connection_threads_loop]
    have : ¬ (i % 65536 < n.val) := by omega
    simp [this]
  | succ k ih =>
    intro i rs ts h
    have hn := n.isLt
    have hmod : i % 65536 = i := Nat.mod_eq_of_lt (by omega)
    rw [connection_threads_loop]
    have hlt : i % 65536 < n.val := by omega
    simp only [hlt, if_true]
    cases hc : connection_thread_new (pc i) with
    | none =>
      simp only []
      rw [ih (i + 1) _ _ (by omega)]
      simp [List.range'_succ, hc]
    | some th =>
      simp only []
      rw [ih (i + 1) _ _ (by omega)]
      simp [List.range'_succ, hc]

/-- The whole thread-creation loop of `main`. -/
theorem connection_threads_loop_zero (pc : Nat → Option Nat) (n : Fin 65536)
    (ts : List tcp_thread_t) :
    connection_threads_loop pc n 0 [] ts =
      ((List.range n.val).map (fun j => connection_thread_new (pc j)),
       ts ++ (List.range n.val).filterMap (fun j => connection_thread_new (pc j))) := by
  rw [connection_threads_loop_eq pc n n.val 0 [] ts (by omega)]
  simp [List.range_eq_range']

/-- Number of `database_close` calls of a start-up that gets past the options:
one when the first failing step is the threads socket (status 2) or the writer
thread (status 3), none otherwise. -/
theorem main_database_close_count (defaults : config) (finedb0 : finedb_t)
    (argv : List cli_opt) (o : outcomes) (cfg : config)
    (hopt : getopt_loop defaults argv = some cfg) :
    (main defaults finedb0 argv o).calls.countP call.is_database_close =
      if first_failure o = some 2 ∨ first_failure o = some 3 then 1 else 0 := by
  rcases o with ⟨db, sock, bind, wr, pc, ls, ml⟩
  cases db <;> by_cases h1 : sock < 0 <;> by_cases h2 : bind < 0 <;> cases wr <;> cases ls <;>
    simp [main, hopt, first_failure, fatal_steps, h1, h2, call.is_database_close,
      List.countP_cons, List.countP_nil]

/-! ## Claims on `main.c` -/

/-- C4, as amended.  Start-up exit codes: once the options are read, `main`
exits with status 1 when `database_open` fails, 2 when the nanomsg socket for
threads communication (the dispatch channel) cannot be created or bound, 3
when the writer thread cannot be created, 4 when `create_listening_socket`,
which creates the listening socket and binds it to the port, fails; for every
combination of outcomes the status is that of the first failing step in
start-up order and the last call is the `exit` with it; the four statuses are
pairwise distinct and non-zero. -/
theorem startup_exit_codes (defaults : config) (finedb0 : finedb_t)
    (argv : List cli_opt) (o : outcomes) (cfg : config)
    (hopt : getopt_loop defaults argv = some cfg) :
    (main defaults finedb0 argv o).status =
      (match first_failure o with
       | some s => some s
       | none => if o.main_loop_returns then some 0 else none) ∧
    (∀ s, first_failure o = some s →
      (main defaults finedb0 argv o).calls.getLast? = some (call.exit s)) ∧
    (o.database_open = none → (main defaults finedb0 argv o).status = some 1) ∧
    (o.database_open ≠ none → (o.nn_socket < 0 ∨ o.nn_bind < 0) →
      (main defaults finedb0 argv o).status = some 2) ∧
    (o.database_open ≠ none → ¬ (o.nn_socket < 0 ∨ o.nn_bind < 0) →
      o.writer_pthread_create = none →
      (main defaults finedb0 argv o).status = some 3) ∧
    (o.database_open ≠ none → ¬ (o.nn_socket < 0 ∨ o.nn_bind < 0) →
      o.writer_pthread_create ≠ none → o.create_listening_socket = false →
      (main defaults finedb0 argv o).status = some 4) ∧
    (fatal_steps o).map (fun s => s.2) = [1, 2, 3, 4] ∧
    ([1, 2, 3, 4] : List Nat).Nodup ∧ (0 : Nat) ∉ ([1, 2, 3, 4] : List Nat) := by
  rcases o with ⟨db, sock, bind, wr, pc, ls, ml⟩
  refine ⟨?_, ?_, ?_, ?_, ?_, ?_, by simp [fatal_steps], by decide, by decide⟩
  · cases db <;> by_cases h1 : sock < 0 <;> by_cases h2 : bind < 0 <;> cases wr <;>
      cases ls <;> simp [main, hopt, first_failure, fatal_steps, h1, h2]
  · cases db <;> by_cases h1 : sock < 0 <;> by_cases h2 : bind < 0 <;> cases wr <;>
      cases ls <;> simp [main, hopt, first_failure, fatal_steps, h1, h2]
  · intro h
    simp only at h
    subst h
    simp [main, hopt]
  · intro hdb hs
    simp only at hdb hs
    cases db with
    | none => exact absurd rfl hdb
    | some d =>
      rcases hs with h1 | h2
      · simp [main, hopt, h1]
      · simp [main, hopt, h2]
  · intro hdb hs hw
    simp only at hdb hs hw
    subst hw
    cases db with
    | none => exact absurd rfl hdb
    | some d => simp [main, hopt, hs]
  · intro hdb hs hw hl
    simp only at hdb hs hw hl
    subst hl
    cases db with
    | none => exact absurd rfl hdb
    | some d =>
      cases wr with
      | none => exact absurd rfl hw
      | some w => simp [main, hopt, hs]

/-- Witness of C4: no option on the command line, every step succeeds but the
writer thread. -/
theorem startup_exit_codes_witness :
    getopt_loop ⟨4, 11138, "/var/lib/finedb"⟩ [] = some ⟨4, 11138, "/var/lib/finedb"⟩ ∧
    (main ⟨4, 11138, "/var/lib/finedb"⟩ ⟨true, none, 0, none, []⟩ []
        ⟨some 1, 3, 0, none, fun i => some i, true, false⟩).status = some 3 :=
  ⟨rfl, (startup_exit_codes ⟨4, 11138, "/var/lib/finedb"⟩ ⟨true, none, 0, none, []⟩ []
      ⟨some 1, 3, 0, none, fun i => some i, true, false⟩
      ⟨4, 11138, "/var/lib/finedb"⟩ rfl).2.2.2.2.1
    (by decide) (by decide) rfl⟩

/-- C4 as first stated fails: status 2 is not the status of a failed bind of
the listening socket.  With `-p 80`, the database, the threads socket (created
and bound) and the writer thread in place, and `create_listening_socket`
failing because the port cannot be bound, `main` exits with status 4. -/
theorem listening_socket_bind_failure_status :
    (main ⟨4, 11138, "/var/lib/finedb"⟩ ⟨true, none, 0, none, []⟩ [.p 80]
        ⟨some 1, 3, 0, some 7, fun i => some (8 + i), false, false⟩).status = some 4 ∧
    (main ⟨4, 11138, "/var/lib/finedb"⟩ ⟨true, none, 0, none, []⟩ [.p 80]
        ⟨some 1, 3, 0, some 7, fun i => some (8 + i), false, false⟩).status ≠ some 2 ∧
    call.nn_bind 3 0 ∈
      (main ⟨4, 11138, "/var/lib/finedb"⟩ ⟨true, none, 0, none, []⟩ [.p 80]
        ⟨some 1, 3, 0, some 7, fun i => some (8 + i), false, false⟩).calls ∧
    call.create_listening_socket 80 false ∈
      (main ⟨4, 11138, "/var/lib/finedb"⟩ ⟨true, none, 0, none, []⟩ [.p 80]
        ⟨some 1, 3, 0, some 7, fun i => some (8 + i), false, false⟩).calls := by
  refine ⟨?_, ?_, ?_, ?_⟩
  · simp [main, getopt_loop, to_ushort]
  · simp [main, getopt_loop, to_ushort]
  · simp [main, getopt_loop, to_ushort]
  · simp [main, getopt_loop, to_ushort]
    rfl

/-- C5. Start-up is sequential and stops at the first fatal failure: for every
combination of outcomes the components `main` goes to start form a prefix of
storage, Write Serializer, Worker Pool, Listener; once a fatal step has failed
no later component is started; when `database_open` fails the only calls are
the `database_open` itself and `exit(1)` (no socket, no writer thread, no
worker, no listener); when nothing fails all four are started, in that
order. -/
theorem startup_in_order (defaults : config) (finedb0 : finedb_t)
    (argv : List cli_opt) (o : outcomes) :
    started (main defaults finedb0 argv o) <+:
      [.storage, .write_serializer, .worker_pool, .listener] ∧
    (o.database_open = none → started (main defaults finedb0 argv o) <+: [.storage]) ∧
    (∀ cfg, getopt_loop defaults argv = some cfg → o.database_open = none →
      (main defaults finedb0 argv o).calls =
        [.signal SIGINT .signal_handler, .database_open cfg.db_path none, .exit 1]) ∧
    (o.nn_socket < 0 ∨ o.nn_bind < 0 →
      started (main defaults finedb0 argv o) <+: [.storage]) ∧
    (o.writer_pthread_create = none →
      started (main defaults finedb0 argv o) <+: [.storage, .write_serializer]) ∧
    (∀ cfg, getopt_loop defaults argv = some cfg → first_failure o = none →
      started (main defaults finedb0 argv o) =
        [.storage, .write_serializer, .worker_pool, .listener]) := by
  rcases o with ⟨db, sock, bind, wr, pc, ls, ml⟩
  have pre1 : ∀ l : List component, [component.storage] <+: component.storage :: l :=
    fun l => ⟨l, rfl⟩
  have pre2 : ∀ l : List component, [component.storage, component.write_serializer] <+:
      component.storage :: component.write_serializer :: l := fun l => ⟨l, rfl⟩
  refine ⟨?_, ?_, ?_, ?_, ?_, ?_⟩
  · cases hopt : getopt_loop defaults argv with
    | none => simp [main, hopt, started, call.component]
    | some cfg =>
      cases db <;> by_cases h1 : sock < 0 <;> by_cases h2 : bind < 0 <;> cases wr <;>
        cases ls <;>
        simp [main, hopt, started, call.component, h1, h2, List.filterMap_cons,
          List.filterMap_append, pre1, pre2]
  · intro h
    simp only at h
    subst h
    cases hopt : getopt_loop defaults argv with
    | none => simp [main, hopt, started, call.component]
    | some cfg => simp [main, hopt, started, call.component, List.filterMap_cons]
  · intro cfg hopt h
    simp only at h
    subst h
    simp [main, hopt]
  · intro h
    simp only at h
    cases hopt : getopt_loop defaults argv with
    | none => simp [main, hopt, started, call.component]
    | some cfg =>
      cases db with
      | none => simp [main, hopt, started, call.component, List.filterMap_cons]
      | some d =>
        by_cases h1 : sock < 0
        · simp [main, hopt, started, call.component, List.filterMap_cons, h1]
        · have h2 : bind < 0 := h.resolve_left h1
          simp [main, hopt, started, call.component, List.filterMap_cons,
            List.filterMap_append, h1, h2]
  · intro h
    simp only at h
    subst h
    cases hopt : getopt_loop defaults argv with
    | none => simp [main, hopt, started, call.component]
    | some cfg =>
      cases db <;> by_cases h1 : sock < 0 <;> by_cases h2 : bind < 0 <;>
        simp [main, hopt, started, call.component, h1, h2, List.filterMap_cons,
          List.filterMap_append, pre1, pre2]
  · intro cfg hopt hff
    cases db <;> by_cases h1 : sock < 0 <;> by_cases h2 : bind < 0 <;> cases wr <;>
      cases ls <;>
      first
      | (exfalso; simp [first_failure, fatal_steps, h1, h2] at hff; done)
      | simp [main, hopt, started, call.component, h1, h2, List.filterMap_cons,
          List.filterMap_append]

/-- C6, evaluated on a start-up in which the database opens (handle 1), the
threads socket and the writer thread are created, and
`create_listening_socket` fails: `main` exits with status 4 and has made no
`database_close` call; the handle is still in the server structure. -/
theorem listening_socket_failure_skips_database_close :
    (main ⟨4, 11138, "/var/lib/finedb"⟩ ⟨true, none, 0, none, []⟩ []
        ⟨some 1, 3, 0, some 7, fun i => some (8 + i), false, false⟩).status = some 4 ∧
    (main ⟨4, 11138, "/var/lib/finedb"⟩ ⟨true, none, 0, none, []⟩ []
        ⟨some 1, 3, 0, some 7, fun i => some (8 + i), false, false⟩).calls.countP
          call.is_database_close = 0 ∧
    (main ⟨4, 11138, "/var/lib/finedb"⟩ ⟨true, none, 0, none, []⟩ []
        ⟨some 1, 3, 0, some 7, fun i => some (8 + i), false, false⟩).calls.getLast?
          = some (call.exit 4) ∧
    (main ⟨4, 11138, "/var/lib/finedb"⟩ ⟨true, none, 0, none, []⟩ []
        ⟨some 1, 3, 0, some 7, fun i => some (8 + i), false, false⟩).finedb.database
          = some 1 := by
  refine ⟨?_, ?_, ?_, ?_⟩ <;>
    simp [main, getopt_loop, call.is_database_close, List.countP_cons, List.countP_nil]

/-- C7. Worker creation failure degrades but never aborts.  In a start-up that
reaches the thread-creation loop, for every pool size and every pattern of
thread-creation outcomes: the loop makes one `connection_thread_new` call per
requested thread, each returning `NULL` exactly when its creation fails; the
vector `tcp_threads` receives exactly the threads created, in creation order,
at most as many as requested; `main` then calls `create_listening_socket`,
and enters `main_loop` when that call succeeds; the exit status does not
depend on the pattern. -/
theorem worker_creation_failure_degrades (defaults : config) (finedb0 : finedb_t)
    (argv : List cli_opt) (o : outcomes) (cfg : config)
    (hopt : getopt_loop defaults argv = some cfg)
    (hdb : o.database_open ≠ none) (hsock : 0 ≤ o.nn_socket) (hbind : 0 ≤ o.nn_bind)
    (hwr : o.writer_pthread_create ≠ none) :
    (∃ before after, (main defaults finedb0 argv o).calls =
      before ++
        [.connection_threads ((List.range cfg.nbr_threads.val).map
            (fun i => connection_thread_new (o.thread_pthread_create i))),
          .create_listening_socket cfg.port o.create_listening_socket] ++ after) ∧
    (∀ i, connection_thread_new (o.thread_pthread_create i) = none ↔
      o.thread_pthread_create i = none) ∧
    (main defaults finedb0 argv o).finedb.tcp_threads =
      finedb0.tcp_threads ++ (List.range cfg.nbr_threads.val).filterMap
        (fun i => (o.thread_pthread_create i).map (fun tid => { tid := tid, fd := -1 })) ∧
    (finedb0.tcp_threads = [] →
      (main defaults finedb0 argv o).finedb.tcp_threads =
        (List.range cfg.nbr_threads.val).filterMap
          (fun i => (o.thread_pthread_create i).map (fun tid => { tid := tid, fd := -1 })) ∧
      (main defaults finedb0 argv o).finedb.tcp_threads.length ≤ cfg.nbr_threads.val) ∧
    (main defaults finedb0 argv o).finedb.tcp_threads.length ≤
      finedb0.tcp_threads.length + cfg.nbr_threads.val ∧
    (o.create_listening_socket = true →
      (main defaults finedb0 argv o).calls.getLast? = some call.main_loop ∧
      (main defaults finedb0 argv o).status =
        if o.main_loop_returns then some 0 else none) ∧
    (∀ pc2 : Nat → Option Nat,
      (main defaults finedb0 argv { o with thread_pthread_create := pc2 }).status =
        (main defaults finedb0 argv o).status) := by
  rcases o with ⟨db, sock, bind, wr, pc, ls, ml⟩
  simp only at hdb hsock hbind hwr
  have h1 : ¬ sock < 0 := by omega
  have h2 : ¬ bind < 0 := by omega
  obtain ⟨d, rfl⟩ := Option.ne_none_iff_exists'.mp hdb
  obtain ⟨w, rfl⟩ := Option.ne_none_iff_exists'.mp hwr
  have hfm : (List.range cfg.nbr_threads.val).filterMap
        (fun j => connection_thread_new (pc j)) =
      (List.range cfg.nbr_threads.val).filterMap
        (fun i => (pc i).map (fun tid => ({ tid := tid, fd := -1 } : tcp_thread_t))) := by
    congr 1
    funext j
    cases pc j <;> rfl
  have htt : (main defaults finedb0 argv ⟨some d, sock, bind, some w, pc, ls, ml⟩).finedb.tcp_threads
      = finedb0.tcp_threads ++ (List.range cfg.nbr_threads.val).filterMap
        (fun i => (pc i).map (fun tid => ({ tid := tid, fd := -1 } : tcp_thread_t))) := by
    rw [← hfm]
    cases ls <;> simp [main, hopt, h1, h2, connection_threads_loop_zero]
  have hlen : (main defaults finedb0 argv
        ⟨some d, sock, bind, some w, pc, ls, ml⟩).finedb.tcp_threads.length ≤
      finedb0.tcp_threads.length + cfg.nbr_threads.val := by
    rw [htt, List.length_append]
    have := List.length_filterMap_le
      (fun i => (pc i).map (fun tid => ({ tid := tid, fd := -1 } : tcp_thread_t)))
      (List.range cfg.nbr_threads.val)
    rw [List.length_range] at this
    omega
  refine ⟨?_, fun i => connection_thread_new_eq_none _, htt, ?_, hlen, ?_, ?_⟩
  · cases ls
    · refine ⟨[.signal SIGINT .signal_handler, .database_open cfg.db_path (some d),
        .nn_socket sock, .nn_bind sock bind, .pthread_create_writer (some w)], [.exit 4], ?_⟩
      simp [main, hopt, h1, h2, connection_threads_loop_zero]
    · refine ⟨[.signal SIGINT .signal_handler, .database_open cfg.db_path (some d),
        .nn_socket sock, .nn_bind sock bind, .pthread_create_writer (some w)], [.main_loop], ?_⟩
      simp [main, hopt, h1, h2, connection_threads_loop_zero]
  · intro h0
    have hl := hlen
    rw [htt] at hl ⊢
    rw [h0] at hl ⊢
    exact ⟨by simp, by simpa using hl⟩
  · intro hl
    simp only at hl
    subst hl
    simp [main, hopt, h1, h2]
  · intro pc2
    cases ls <;> simp [main, hopt, h1, h2]

/-- Witness of C7: three threads requested with `-t 3`, the second creation
fails; the vector holds the first and the third thread and `main` reaches
`main_loop`. -/
theorem worker_creation_failure_degrades_witness :
    (main ⟨4, 11138, "/var/lib/finedb"⟩ ⟨true, none, 0, none, []⟩ [.t 3]
        ⟨some 1, 3, 0, some 7, fun i => if i = 1 then none else some (8 + i), true,
          false⟩).finedb.tcp_threads = [⟨8, -1⟩, ⟨10, -1⟩] ∧
    (main ⟨4, 11138, "/var/lib/finedb"⟩ ⟨true, none, 0, none, []⟩ [.t 3]
        ⟨some 1, 3, 0, some 7, fun i => if i = 1 then none else some (8 + i), true,
          false⟩).calls.getLast? = some call.main_loop := by
  have h := worker_creation_failure_degrades ⟨4, 11138, "/var/lib/finedb"⟩
    ⟨true, none, 0, none, []⟩ [.t 3]
    ⟨some 1, 3, 0, some 7, fun i => if i = 1 then none else some (8 + i), true, false⟩
    ⟨to_ushort 3, 11138, "/var/lib/finedb"⟩ rfl (by decide) (by decide) (by decide)
    (by decide)
  refine ⟨?_, (h.2.2.2.2.2.1 rfl).1⟩
  rw [h.2.2.1]
  decide

/-- C8. Clean shutdown on a stop signal: from every running server state (run
flag set, database handle `h` open), `signal_handler` clears the run flag,
makes exactly one `database_close` call, on `h`, and then calls `exit(0)` as
its last call. -/
theorem signal_handler_clean_shutdown (finedb_g : finedb_t) (sig : Int) (h : Nat)
    (hrun : finedb_g.run = true) (hdb : finedb_g.database = some h) :
    (signal_handler finedb_g sig).finedb.run = false ∧
    (signal_handler finedb_g sig).calls.countP call.is_database_close = 1 ∧
    (signal_handler finedb_g sig).calls =
      [.signal sig .SIG_IGN, .database_close (some h), .exit 0] ∧
    (signal_handler finedb_g sig).calls.getLast? = some (call.exit 0) ∧
    (signal_handler finedb_g sig).status = some 0 := by
  have _ := hrun
  simp [signal_handler, hdb, call.is_database_close, List.countP_cons, List.countP_nil]

/-- Witness of C8: a running server with database handle 1 receives `SIGINT`. -/
theorem signal_handler_clean_shutdown_witness :
    (signal_handler ⟨true, some 1, 3, some 7, [⟨8, -1⟩]⟩ SIGINT).finedb.run = false ∧
    (signal_handler ⟨true, some 1, 3, some 7, [⟨8, -1⟩]⟩ SIGINT).calls =
      [.signal SIGINT .SIG_IGN, .database_close (some 1), .exit 0] :=
  ⟨(signal_handler_clean_shutdown ⟨true, some 1, 3, some 7, [⟨8, -1⟩]⟩ SIGINT 1 rfl rfl).1,
   (signal_handler_clean_shutdown ⟨true, some 1, 3, some 7, [⟨8, -1⟩]⟩ SIGINT 1 rfl rfl).2.2.1⟩

/-! ## Lemmas on `connection_thread.c` -/

/-- The worker loop appends to the calls made so far the calls of each receive,
one receive after the other. -/
theorem worker_loop_eq (recvs : List (Option (List Char))) :
    ∀ trace : List worker_call,
      worker_loop recvs trace = trace ++ recvs.flatMap one_receive := by
  induction recvs with
  | nil => intro trace; simp [worker_loop]
  | cons r rest ih =>
    intro trace
    cases r with
    | none => simp [worker_loop, ih, one_receive]
    | some buffer => simp [worker_loop, ih, one_receive]

/-- Writes on `fd` in the calls of the receives: one per receive of `fd`. -/
theorem countP_write_flatMap (fd : Int) (recvs : List (Option (List Char))) :
    (recvs.flatMap one_receive).countP (worker_call.is_write_to fd) = received fd recvs := by
  induction recvs with
  | nil => simp [received]
  | cons r rest ih =>
    rw [List.flatMap_cons, List.countP_append, ih]
    cases r with
    | none =>
      simp [received, one_receive, worker_call.is_write_to, is_receive_of, List.countP_cons]
    | some buffer =>
      by_cases hfd : atoi buffer = fd
      · simp [received, one_receive, worker_call.is_write_to, is_receive_of,
          List.countP_cons, hfd]
        omega
      · simp [received, one_receive, worker_call.is_write_to, is_receive_of,
          List.countP_cons, hfd]

/-- Closes of `fd` in the calls of the receives: one per receive of `fd`. -/
theorem countP_close_flatMap (fd : Int) (recvs : List (Option (List Char))) :
    (recvs.flatMap one_receive).countP (worker_call.is_close_of fd) = received fd recvs := by
  induction recvs with
  | nil => simp [received]
  | cons r rest ih =>
    rw [List.flatMap_cons, List.countP_append, ih]
    cases r with
    | none =>
      simp [received, one_receive, worker_call.is_close_of, is_receive_of, List.countP_cons]
    | some buffer =>
      by_cases hfd : atoi buffer = fd
      · simp [received, one_receive, worker_call.is_close_of, is_receive_of,
          List.countP_cons, hfd]
        omega
      · simp [received, one_receive, worker_call.is_close_of, is_receive_of,
          List.countP_cons, hfd]

/-- A descriptor received at least once is named by a message of the list. -/
theorem received_pos_iff (fd : Int) (recvs : List (Option (List Char))) :
    0 < received fd recvs ↔ ∃ buffer, some buffer ∈ recvs ∧ atoi buffer = fd := by
  unfold received
  rw [List.countP_pos_iff]
  constructor
  · rintro ⟨r, hr, hp⟩
    cases r with
    | none => simp [is_receive_of] at hp
    | some buffer => exact ⟨buffer, hr, by simpa [is_receive_of] using hp⟩
  · rintro ⟨buffer, hr, hp⟩
    exact ⟨some buffer, hr, by simpa [is_receive_of] using hp⟩

/-- Every call of a connection thread that names a descriptor (a `write` or a
`close`) names one that a message of the list carries, and every write is of
the acknowledgment, with count 13. -/
theorem worker_touches_received_only (sock conn : Int)
    (recvs : List (Option (List Char))) :
    (∀ fd buf n, worker_call.write fd buf n ∈ _connection_thread_execution sock conn recvs →
      buf = ACK ∧ n = 13 ∧ ∃ buffer, some buffer ∈ recvs ∧ atoi buffer = fd) ∧
    (∀ fd, worker_call.close fd ∈ _connection_thread_execution sock conn recvs →
      ∃ buffer, some buffer ∈ recvs ∧ atoi buffer = fd) := by
  have hw : ∀ fd buf n, worker_call.write fd buf n ∈ recvs.flatMap one_receive →
      buf = ACK ∧ n = 13 ∧ ∃ buffer, some buffer ∈ recvs ∧ atoi buffer = fd := by
    intro fd buf n hmem
    rw [List.mem_flatMap] at hmem
    obtain ⟨r, hr, hin⟩ := hmem
    cases r with
    | none => simp [one_receive] at hin
    | some buffer =>
      simp [one_receive] at hin
      exact ⟨hin.2.1, hin.2.2, buffer, hr, hin.1.symm⟩
  have hcl : ∀ fd, worker_call.close fd ∈ recvs.flatMap one_receive →
      ∃ buffer, some buffer ∈ recvs ∧ atoi buffer = fd := by
    intro fd hmem
    rw [List.mem_flatMap] at hmem
    obtain ⟨r, hr, hin⟩ := hmem
    cases r with
    | none => simp [one_receive] at hin
    | some buffer =>
      simp [one_receive] at hin
      exact ⟨buffer, hr, hin.symm⟩
  unfold _connection_thread_execution
  by_cases h1 : sock < 0
  · simp [h1]
  · by_cases h2 : conn < 0
    · simp [h1, h2]
    · simp only [h1, h2, if_false, worker_loop_eq]
      constructor
      · intro fd buf n hmem
        rw [List.mem_append] at hmem
        rcases hmem with hmem | hmem
        · simp at hmem
        · exact hw fd buf n hmem
      · intro fd hmem
        rw [List.mem_append] at hmem
        rcases hmem with hmem | hmem
        · simp at hmem
        · exact hcl fd hmem

/-! ## Claim on `connection_thread.c` -/

/-- C9. One response, then close, per connection.  For a connection thread
that reached its loop and every sequence of `nn_recv` results, the calls of
the thread are, receive after receive: for a message, the receive, one write
of the 13-byte acknowledgment to the descriptor the message names and one
close of that descriptor, before the next receive; for a failed receive, the
receive alone.  So each descriptor is written to, and closed, as many times as
it was received, every write is of the same 13 bytes, and no write or close
names a descriptor that was not received. -/
theorem worker_one_response_then_close (sock conn : Int)
    (recvs : List (Option (List Char))) (hsock : 0 ≤ sock) (hconn : 0 ≤ conn) :
    _connection_thread_execution sock conn recvs =
      [.nn_socket sock, .nn_connect sock conn] ++ recvs.flatMap one_receive ∧
    (∀ buffer, one_receive (some buffer) =
      [.nn_recv (some buffer), .write (atoi buffer) ACK 13, .close (atoi buffer)]) ∧
    one_receive none = [.nn_recv none] ∧
    (∀ fd, (_connection_thread_execution sock conn recvs).countP
        (worker_call.is_write_to fd) = received fd recvs ∧
      (_connection_thread_execution sock conn recvs).countP
        (worker_call.is_close_of fd) = received fd recvs) ∧
    (∀ fd buf n, worker_call.write fd buf n ∈ _connection_thread_execution sock conn recvs →
      buf = ACK ∧ n = 13 ∧ ∃ buffer, some buffer ∈ recvs ∧ atoi buffer = fd) ∧
    (∀ fd, worker_call.close fd ∈ _connection_thread_execution sock conn recvs →
      ∃ buffer, some buffer ∈ recvs ∧ atoi buffer = fd) ∧
    ACK.utf8ByteSize = 13 := by
  have h1 : ¬ sock < 0 := by omega
  have h2 : ¬ conn < 0 := by omega
  have heq : _connection_thread_execution sock conn recvs =
      [.nn_socket sock, .nn_connect sock conn] ++ recvs.flatMap one_receive := by
    simp only [_connection_thread_execution, h1, h2, if_false, worker_loop_eq]
  refine ⟨heq, fun _ => rfl, rfl, ?_, (worker_touches_received_only sock conn recvs).1,
    (worker_touches_received_only sock conn recvs).2, by decide⟩
  intro fd
  rw [heq, List.countP_append, List.countP_append, countP_write_flatMap,
    countP_close_flatMap]
  simp [worker_call.is_write_to, worker_call.is_close_of, List.countP_cons]

/-- Witness of C9: the thread receives the descriptor 5, then a failed receive,
then the descriptor 12. -/
theorem worker_one_response_then_close_witness :
    _connection_thread_execution 3 0 [some ['5'], none, some ['1', '2']] =
      [.nn_socket 3, .nn_connect 3 0,
        .nn_recv (some ['5']), .write 5 ACK 13, .close 5,
        .nn_recv none,
        .nn_recv (some ['1', '2']), .write 12 ACK 13, .close 12] := by
  rw [(worker_one_response_then_close 3 0 [some ['5'], none, some ['1', '2']]
    (by decide) (by decide)).1]
  decide

end FineDB
